import Mathlib

set_option linter.unusedVariables false

deriving instance DecidableEq for Except

namespace AttrIndent

/-- A source coordinate: 1-based line and 0-based column, both integers, since the
rule subtracts fixed offsets from recorded columns and the result may go below zero. -/
structure Coord where
  line : Int
  column : Int
deriving DecidableEq, Repr

/-- A source span with a start and an end coordinate (the field end is a Lean keyword,
so it is spelled end_). -/
structure Loc where
  start : Coord
  end_ : Coord
deriving DecidableEq, Repr

/-- The node-type tags the rule compares against: the three visited kinds plus the
sub-node kinds that occur as parameter, hash-pair-value or attribute-value types. -/
inductive NodeType
  | BlockStatement
  | MustacheStatement
  | ElementNode
  | SubExpression
  | PathExpression
  | NumberLiteral
  | StringLiteral
  | BooleanLiteral
  | TextNode
  | ConcatStatement
  | HashPair
  | AttrNode
deriving DecidableEq, Repr

/-- A JavaScript field value used as a display name: its string rendering together with
its truthiness (the number 0, the empty string, false, null are falsy in JavaScript;
this matters because the source selects a name with a truthiness test). -/
structure StrVal where
  text : String
  truthy : Bool
deriving DecidableEq, Repr

/-- A path sub-node: its original text and its loc.source marker. The parser marks
auto-inserted paths by setting loc.source to the string (synthetic). -/
structure PathNode where
  original : String
  locSource : Option String
deriving DecidableEq, Repr

/-- The value sub-node of a hash pair or of a markup attribute: its type and its span. -/
structure ValueNode where
  type : NodeType
  loc : Loc
deriving DecidableEq, Repr

/-- An entry of a parameter, hash-pair or attribute sequence. Fields that a given
entry kind lacks in the tree are none: a positional param has original and possibly
path but no key, name or value; a hash pair has key and value; an attribute has
name and value. -/
structure Param where
  type : NodeType
  loc : Loc
  original : Option StrVal
  key : Option StrVal
  name : Option StrVal
  value : Option ValueNode
  path : Option PathNode
deriving DecidableEq, Repr

/-- The hash (named-argument group) of an invocation: its pairs and its own span. -/
structure Hash where
  pairs : List Param
  loc : Loc
deriving DecidableEq, Repr

/-- The program (body) of a block invocation: its span and its block-parameter names. -/
structure ProgramNode where
  loc : Loc
  blockParams : List String
deriving DecidableEq, Repr

/-- A child node of a markup element: only its type and span matter to the rule. -/
structure ChildNode where
  type : NodeType
  loc : Loc
deriving DecidableEq, Repr

/-- A visited syntax node, covering the three visited kinds. Fields not belonging
to a kind are empty lists, none, the empty string or false; the rule never reads
them for that kind. -/
structure Node where
  type : NodeType
  loc : Loc
  path : Option PathNode
  params : List Param
  hash : Hash
  program : Option ProgramNode
  attributes : List Param
  children : List ChildNode
  tag : String
  selfClosing : Bool
deriving DecidableEq, Repr

/-- Modelled from the spec: the ambient source access of the rule host, namely the
raw source split into lines (this.source, for whitespace-length probing). The host
class is not under src/, only its uses are. -/
structure Env where
  lines : List String
deriving DecidableEq, Repr

/-- Modelled from the spec: the raw source line at a 1-based line number; out-of-range
lines read as the empty string. -/
def lineAt (env : Env) (line : Int) : String :=
  env.lines.getD (line - 1).toNat ""

/-- Substring of a single line between two 0-based columns (clamped). -/
def strSlice (s : String) (a b : Int) : String :=
  (s.drop a.toNat).take (b - a).toNat

/-- Modelled from the spec: the whitespace trim the host applies on request,
rendered over the character list so that concrete runs reduce inside the kernel. -/
def jsTrim (s : String) : String :=
  String.mk (((s.data.dropWhile Char.isWhitespace).reverse.dropWhile Char.isWhitespace).reverse)

/-- Modelled from the spec: the lines strictly between two 1-based line numbers. -/
def linesBetween (env : Env) (a b : Int) : List String :=
  (List.range env.lines.length).filterMap (fun (i : Nat) =>
    if a < Int.ofNat i + 1 ∧ Int.ofNat i + 1 < b then env.lines.get? i else none)

/-- Modelled from the spec: sourceForNode, the source-buffer accessor of the rule
host. Given a span it returns the exact substring; an end column of none means to
the end of the end line (the source passes such a span when it wants a whole line
tail). The host class is not under src/. -/
def sourceForNode (env : Env) (start : Coord) (endLine : Int) (endCol : Option Int) : String :=
  let lastLine := lineAt env endLine
  let endColumn : Int := match endCol with
    | some c => c
    | none => (lastLine.length : Int)
  if start.line = endLine then
    strSlice (lineAt env start.line) start.column endColumn
  else if start.line < endLine then
    String.intercalate "\n"
      ((strSlice (lineAt env start.line) start.column ((lineAt env start.line).length : Int))
        :: (linesBetween env start.line endLine ++ [strSlice lastLine 0 endColumn]))
  else ""

/-- Source text of a whole node span, used as the source field of a diagnostic. -/
def sourceOfNode (env : Env) (node : Node) : String :=
  sourceForNode env node.loc.start node.loc.end_.line (some node.loc.end_.column)

/-- Length of the leading whitespace of a statement (the regex probe of the
source), rendered over the character list so that concrete runs reduce inside
the kernel. -/
def getWhiteSpaceLength (statement : String) : Int :=
  ((statement.data.takeWhile Char.isWhitespace).length : Int)

/-- Normalized options of the rule. processElements is an Option because a mapping
configuration without the process-elements key leaves the field absent, and the
visitor tests its truthiness (absent reads as false). -/
structure Options where
  maxLength : Int
  indentation : Int
  processElements : Option Bool
deriving DecidableEq, Repr

/-- Structured content of a reported message: one constructor per message template
in the source; each carries the display names the template embeds. The coordinate
placeholders of the templates are carried by the Diag fields actual and expected. -/
inductive DiagKind
  | paramIndent (paramType : String) (paramName : String)
  | blockParams (statement : String)
  | closeBraceComponent (componentName : String)
  | closeBracketElement (elementName : String)
  | closeTag (tagName : String)
deriving DecidableEq, Repr

/-- A diagnostic handed to the log collaborator: the structured message content,
the actual and expected coordinates it embeds, the reported line and column, and
the source snippet of the offending node. -/
structure Diag where
  kind : DiagKind
  actual : Coord
  expected : Coord
  line : Int
  column : Int
  source : String
deriving DecidableEq, Repr

/-- End coordinate of the opening invocation or tag: the body start for a block
form, the first child start for a markup element with children, the node end
otherwise. Reading the body of a block form without one is a JavaScript TypeError,
modelled as an error result. -/
def getEndLocationForOpen (node : Node) : Except String Coord :=
  if node.type = NodeType.BlockStatement then
    match node.program with
    | some pr => Except.ok pr.loc.start
    | none => Except.error "TypeError: Cannot read loc of undefined"
  else if node.type = NodeType.ElementNode ∧ node.children.length > 0 then
    match node.children.head? with
    | some c => Except.ok c.loc.start
    | none => Except.error "TypeError: Cannot read loc of undefined"
  else
    Except.ok node.loc.end_

/-- The applicability gate. The unused second argument mirrors the source, which
passes node.type without reading it. -/
def canApplyRule (node : Node) (type : NodeType) (config : Options) : Except String Bool :=
  match getEndLocationForOpen node with
  | Except.error e => Except.error e
  | Except.ok end_ =>
    let start := node.loc.start
    if start.line = end_.line then
      Except.ok (decide (end_.column - start.column > config.maxLength))
    else
      Except.ok true

/-- Expected and actual coordinates of the block-parameter clause. The returned
actual is an Option: the source leaves the variable unassigned when the argument
tail lies beyond the body-start line, and the caller then crashes reading it. -/
def getBlockParamStartLoc (env : Env) (node : Node) : Except String (Option Coord × Coord) :=
  match node.program with
  | none => Except.error "TypeError: Cannot read loc of undefined"
  | some pr =>
    let programStartLoc := pr.loc.start
    let nodeStart := node.loc.start
    if node.params.length = 0 ∧ node.hash.pairs.length = 0 then
      let expected : Coord := { line := nodeStart.line + 1, column := nodeStart.column }
      if nodeStart.line = programStartLoc.line then
        match node.path with
        | none => Except.error "TypeError: Cannot read original of undefined"
        | some p =>
          let displayName := "\x7b\x7b#" ++ p.original
          Except.ok (some { line := nodeStart.line, column := (displayName.length : Int) }, expected)
      else
        let source := sourceForNode env { line := programStartLoc.line, column := 0 }
          programStartLoc.line (some programStartLoc.column)
        Except.ok (some { line := programStartLoc.line, column := getWhiteSpaceLength source }, expected)
    else
      let paramOrHashPairEndLoc : Option Coord :=
        if node.params.length ≠ 0 then (node.params.getLast?).map (fun p => p.loc.end_) else none
      let paramOrHashPairEndLoc : Option Coord :=
        if node.hash.pairs.length ≠ 0 then some node.hash.loc.end_ else paramOrHashPairEndLoc
      match paramOrHashPairEndLoc with
      | none => Except.error "TypeError: Cannot read line of undefined"
      | some tailLoc =>
        let expected : Coord := { line := tailLoc.line + 1, column := node.loc.start.column }
        if tailLoc.line = programStartLoc.line then
          Except.ok (some tailLoc, expected)
        else if tailLoc.line < programStartLoc.line then
          let hashPairLineEndSource := jsTrim (sourceForNode env tailLoc tailLoc.line none)
          if hashPairLineEndSource ≠ "" then
            Except.ok (some tailLoc, expected)
          else
            let acol := getWhiteSpaceLength (lineAt env programStartLoc.line)
            Except.ok (some { line := programStartLoc.line, column := acol }, expected)
        else
          Except.ok (none, expected)

/-- Validator for the block-parameter clause: compares the coordinates computed by
getBlockParamStartLoc and builds one diagnostic on mismatch. -/
def validateBlockParams (env : Env) (node : Node) : Except String (List Diag) :=
  match getBlockParamStartLoc env node with
  | Except.error e => Except.error e
  | Except.ok (actualOpt, expected) =>
    match actualOpt with
    | none => Except.error "TypeError: Cannot read line of undefined"
    | some actual =>
      if actual.line ≠ expected.line ∨ actual.column ≠ expected.column then
        match node.program with
        | none => Except.error "TypeError: Cannot read loc of undefined"
        | some pr =>
          let blockParamStatement :=
            jsTrim (sourceForNode env actual pr.loc.start.line (some pr.loc.start.column))
          Except.ok [{ kind := DiagKind.blockParams blockParamStatement,
                       actual := actual, expected := expected,
                       line := actual.line, column := actual.column,
                       source := sourceOfNode env node }]
      else Except.ok []

/-- Display name of a mismatching entry: the field selected by namePath when that
field is present and truthy, else the original text of the entry path; an entry
with a falsy selected field and no path makes the lookup a JavaScript TypeError. -/
def paramNameOf (param : Param) (namePath : String) : Except String String :=
  let field : Option StrVal :=
    if namePath = "original" then param.original
    else if namePath = "name" then param.name
    else if namePath = "key" then param.key
    else none
  match field with
  | some v =>
    if v.truthy then Except.ok v.text
    else
      match param.path with
      | some p => Except.ok p.original
      | none => Except.error "TypeError: Cannot read original of undefined"
  | none =>
    match param.path with
    | some p => Except.ok p.original
    | none => Except.error "TypeError: Cannot read original of undefined"

/-- The diagnostic one loop pass builds for a mismatching entry. -/
def mkParamDiag (env : Env) (node : Node) (paramType paramName : String)
    (actualStartLocation : Coord) (expectedLineStart expectedColumnStart : Int) : Diag :=
  { kind := DiagKind.paramIndent paramType paramName,
    actual := actualStartLocation,
    expected := { line := expectedLineStart, column := expectedColumnStart },
    line := actualStartLocation.line,
    column := actualStartLocation.column,
    source := sourceOfNode env node }

/-- The tail of one loop pass: read the value type (falling back to the entry
type); for a sub-expression pull the expected line to the entry end line when the
entry spans several lines; for a mustache read the value end line (a JavaScript
TypeError when the entry has no value sub-node); otherwise keep the line. -/
def advanceLineE (param : Param) (expectedLineStart : Int) : Except String Int :=
  let t : NodeType := match param.value with
    | some v => v.type
    | none => param.type
  if t = NodeType.SubExpression then
    Except.ok (if param.loc.start.line ≠ param.loc.end_.line then param.loc.end_.line
      else expectedLineStart)
  else if t = NodeType.MustacheStatement then
    match param.value with
    | some v => Except.ok v.loc.end_.line
    | none => Except.error "TypeError: Cannot read loc of undefined"
  else Except.ok expectedLineStart

/-- One pass of the per-entry loop body: compare the entry start against the running
expected coordinate, report on mismatch, then advance the expected line and add one. -/
def iterStep (env : Env) (node : Node) (paramType namePath : String)
    (expectedColumnStart : Int) (st : List Diag × Int) (param : Param) :
    Except String (List Diag × Int) :=
  let diags := st.1
  let expectedLineStart := st.2
  let actualStartLocation := param.loc.start
  let diagsE : Except String (List Diag) :=
    if expectedLineStart ≠ actualStartLocation.line ∨
        expectedColumnStart ≠ actualStartLocation.column then
      match paramNameOf param namePath with
      | Except.error e => Except.error e
      | Except.ok paramName =>
        Except.ok (diags ++ [mkParamDiag env node paramType paramName actualStartLocation
          expectedLineStart expectedColumnStart])
    else Except.ok diags
  match diagsE with
  | Except.error e => Except.error e
  | Except.ok diags2 =>
    match advanceLineE param expectedLineStart with
    | Except.error e => Except.error e
    | Except.ok l => Except.ok (diags2, l + 1)

/-- The per-entry loop of iterateParams, rendered as structural recursion over the
entry list with the diagnostic list and the running expected line as accumulators. -/
def iterLoop (env : Env) (node : Node) (paramType namePath : String)
    (expectedColumnStart : Int) :
    List Param → List Diag → Int → Except String (List Diag × Int)
  | [], diags, els => Except.ok (diags, els)
  | p :: ps, diags, els =>
    match iterStep env node paramType namePath expectedColumnStart (diags, els) p with
    | Except.error e => Except.error e
    | Except.ok (diags2, els2) =>
      iterLoop env node paramType namePath expectedColumnStart ps diags2 els2

/-- The synthetic-path preamble of iterateParams: only for the positional kind it
reads node.path.loc.source; when that is the marker (synthetic) the expected-line
baseline moves back by one, and for a block form the recorded start column of the
first positional argument is decremented in place (a crash when there is none). -/
def adjustForSynthetic (params : List Param) (type : String) (expectedLineStart : Int)
    (node : Node) : Except String (Int × List Param) :=
  if type = "positional" then
    match node.path with
    | none => Except.error "TypeError: Cannot read loc of undefined"
    | some p =>
      if p.locSource = some "(synthetic)" then
        let els := expectedLineStart - 1
        if node.type = NodeType.BlockStatement then
          match params with
          | [] => Except.error "TypeError: Cannot read loc of undefined"
          | p0 :: rest =>
            Except.ok (els, { p0 with loc := { p0.loc with
              start := { p0.loc.start with column := p0.loc.start.column - 1 } } } :: rest)
        else Except.ok (els, params)
      else Except.ok (expectedLineStart, params)
  else Except.ok (expectedLineStart, params)

/-- The parameter/attribute iteration of the source: pick the display strings for
the kind, run the synthetic preamble, then the per-entry loop. Returns the emitted
diagnostics, the expected line for what follows, and the (possibly corrected)
entry list standing for the mutated node.params. -/
def iterateParams (env : Env) (params : List Param) (type : String)
    (expectedLineStart expectedColumnStart : Int) (node : Node) :
    Except String (List Diag × Int × List Param) :=
  let pn : String × String :=
    if type = "positional" then ("positional param", "original")
    else if type = "htmlAttribute" then ("htmlAttribute", "name")
    else ("attribute", "key")
  match adjustForSynthetic params type expectedLineStart node with
  | Except.error e => Except.error e
  | Except.ok (els, params2) =>
    match iterLoop env node pn.1 pn.2 expectedColumnStart params2 [] els with
    | Except.error e => Except.error e
    | Except.ok (diags, finalLine) => Except.ok (diags, finalLine, params2)

/-- Validator for the parameter/attribute sequences: attributes for a markup
element, else positional params then hash pairs, threading the expected line.
Returns the diagnostics, the expected line for the closing delimiter, and the
node with any in-place correction applied. -/
def validateParams (env : Env) (cfg : Options) (node : Node) :
    Except String (List Diag × Int × Node) :=
  let expectedColumnStart := node.loc.start.column + cfg.indentation
  let expectedLineStart := node.loc.start.line + 1
  if node.type = NodeType.ElementNode then
    match iterateParams env node.attributes "htmlAttribute" expectedLineStart
        expectedColumnStart node with
    | Except.error e => Except.error e
    | Except.ok (d, l, attrs2) => Except.ok (d, l, { node with attributes := attrs2 })
  else
    match iterateParams env node.params "positional" expectedLineStart
        expectedColumnStart node with
    | Except.error e => Except.error e
    | Except.ok (d1, l1, params2) =>
      let node2 : Node := { node with params := params2 }
      match iterateParams env node2.hash.pairs "attribute" l1 expectedColumnStart node2 with
      | Except.error e => Except.error e
      | Except.ok (d2, l2, pairs2) =>
        Except.ok (d1 ++ d2, l2, { node2 with hash := { node2.hash with pairs := pairs2 } })

/-- Validator for the closing brace of the non-block form (and the closing bracket
of a markup element): the actual coordinate is the opening-close location minus a
fixed offset, the expected one is the line returned by validateParams at the node
start column. -/
def validateCloseBrace (env : Env) (node : Node) (expectedStartLine : Int) :
    Except String (List Diag × Node) :=
  match getEndLocationForOpen node with
  | Except.error e => Except.error e
  | Except.ok end_ =>
    let actualColumnStartLocation : Int :=
      if node.type = NodeType.ElementNode ∧ ¬node.selfClosing then 1 else 2
    let actualStartLocation : Coord :=
      { line := end_.line, column := end_.column - actualColumnStartLocation }
    let expectedStartLocation : Coord :=
      { line := expectedStartLine, column := node.loc.start.column }
    let componentNameE : Except String String :=
      if node.type = NodeType.ElementNode then Except.ok node.tag
      else
        match node.path with
        | some p => Except.ok p.original
        | none => Except.error "TypeError: Cannot read original of undefined"
    match componentNameE with
    | Except.error e => Except.error e
    | Except.ok componentName =>
      if actualStartLocation.line ≠ expectedStartLocation.line ∨
          actualStartLocation.column ≠ expectedStartLocation.column then
        let k : DiagKind :=
          if node.type = NodeType.ElementNode then DiagKind.closeBracketElement componentName
          else DiagKind.closeBraceComponent componentName
        Except.ok ([{ kind := k, actual := actualStartLocation,
                      expected := expectedStartLocation,
                      line := actualStartLocation.line,
                      column := actualStartLocation.column,
                      source := sourceOfNode env node }], node)
      else Except.ok ([], node)

/-- Validator for the closing tag of a markup element with children. -/
def validateClosingTag (env : Env) (node : Node) (expectedStartLine : Int) :
    Except String (List Diag × Node) :=
  let actualColumnStartLocation : Int := 3 + (node.tag.length : Int)
  let actualStartLocation : Coord :=
    { line := node.loc.end_.line, column := node.loc.end_.column - actualColumnStartLocation }
  let expectedStartLocation : Coord :=
    { line := expectedStartLine, column := node.loc.start.column }
  let tagNameE : Except String String :=
    if node.type = NodeType.ElementNode then Except.ok node.tag
    else
      match node.path with
      | some p => Except.ok p.original
      | none => Except.error "TypeError: Cannot read original of undefined"
  match tagNameE with
  | Except.error e => Except.error e
  | Except.ok tagName =>
    if actualStartLocation.line ≠ expectedStartLocation.line ∨
        actualStartLocation.column ≠ expectedStartLocation.column then
      Except.ok ([{ kind := DiagKind.closeTag tagName, actual := actualStartLocation,
                    expected := expectedStartLocation,
                    line := actualStartLocation.line,
                    column := actualStartLocation.column,
                    source := sourceOfNode env node }], node)
    else Except.ok ([], node)

/-- Validator sequence for the non-block form: only with some argument present,
run validateParams then validateCloseBrace on the returned line. -/
def validateNonBlockForm (env : Env) (cfg : Options) (node : Node) :
    Except String (List Diag × Node) :=
  if node.params.length ≠ 0 ∨ node.hash.pairs.length ≠ 0 then
    match validateParams env cfg node with
    | Except.error e => Except.error e
    | Except.ok (d1, expectedStartLine, node2) =>
      match validateCloseBrace env node2 expectedStartLine with
      | Except.error e => Except.error e
      | Except.ok (d2, node3) => Except.ok (d1 ++ d2, node3)
  else Except.ok ([], node)

/-- Validator sequence for the block form: validateParams when arguments exist,
then validateBlockParams when the body declares block parameters. -/
def validateBlockForm (env : Env) (cfg : Options) (node : Node) :
    Except String (List Diag × Node) :=
  match
    (if node.params.length ≠ 0 ∨ node.hash.pairs.length ≠ 0 then
      match validateParams env cfg node with
      | Except.error e => Except.error e
      | Except.ok (d, _, node2) => Except.ok (d, node2)
    else Except.ok (([] : List Diag), node)) with
  | Except.error e => Except.error e
  | Except.ok (d1, node2) =>
    match node2.program with
    | none => Except.error "TypeError: Cannot read blockParams of undefined"
    | some pr =>
      if pr.blockParams.length ≠ 0 then
        match validateBlockParams env node2 with
        | Except.error e => Except.error e
        | Except.ok d2 => Except.ok (d1 ++ d2, node2)
      else Except.ok (d1, node2)

/-- The raw configuration value, as the shapes JavaScript typeof distinguishes:
booleans, mappings (with the three optional recognized keys; an absent key is
none), null (which typeof also classifies as object), numbers, strings, absent. -/
inductive ConfigValue
  | boolV (b : Bool)
  | objV (maxLen : Option Int) (indent : Option Int) (procEl : Option Bool)
  | nullV
  | numV (n : Int)
  | strV (s : String)
  | undefinedV
deriving DecidableEq, Repr

/-- The two failure shapes of configuration parsing: the deliberate configuration
error carrying the usage lines, and the accidental JavaScript TypeError. -/
inductive ConfigError
  | configurationError (usage : List String)
  | typeError (msg : String)
deriving DecidableEq, Repr

/-- The four usage lines the source hands to the error-message helper (literal
braces written with escapes). -/
def usageLines : List String :=
  ["  * boolean - `true` - Enables the rule to be enforced when the opening invocation has more than 80 characters or when it spans multiple lines.",
   "  * \x7b open-invocation-max-len: n characters, indentation: m  \x7d - n : The max length of the opening invocation can be configured",
   "  *                                                            - m : The desired indentation of attribute",
   "  * \x7b process-elements: `boolean` \x7d                         - `true` : Also parse HTML/SVG attributes"]

/-- Result of configuration parsing: the rule disabled (the source returns false)
or a normalized options record. -/
inductive ParseResult
  | disabled
  | options (opts : Options)
deriving DecidableEq, Repr

/-- The configuration normalizer. A true boolean enables everything with defaults;
false and absent disable; a mapping overrides the defaults key by key (typeof null
is object, so null reaches the mapping branch and the key probe with the in
operator throws a TypeError); every remaining shape falls through the switch to
the configuration error carrying the usage lines. -/
def parseConfig (config : ConfigValue) : Except ConfigError ParseResult :=
  match config with
  | ConfigValue.boolV b =>
    if b then
      Except.ok (ParseResult.options { maxLength := 80, indentation := 2, processElements := some true })
    else Except.ok ParseResult.disabled
  | ConfigValue.objV ml ind pe =>
    let result0 : Options := { maxLength := 80, indentation := 2, processElements := none }
    let result1 : Options := match ml with
      | some v => { result0 with maxLength := v }
      | none => result0
    let result2 : Options := match ind with
      | some v => { result1 with indentation := v }
      | none => result1
    let result3 : Options := match pe with
      | some v => { result2 with processElements := some v }
      | none => result2
    Except.ok (ParseResult.options result3)
  | ConfigValue.nullV => Except.error (ConfigError.typeError "TypeError: Cannot use in operator to search in null")
  | ConfigValue.undefinedV => Except.ok ParseResult.disabled
  | ConfigValue.numV n => Except.error (ConfigError.configurationError usageLines)
  | ConfigValue.strV s => Except.error (ConfigError.configurationError usageLines)

/-- Truthiness of the optional processElements field: an absent field reads as
undefined, which is falsy. -/
def isTruthyOpt : Option Bool → Bool
  | some b => b
  | none => false

/-- The visitor dispatch: one step of the external walk on a single node, keyed by
node type, returning the diagnostics emitted for that node and the node as left
behind (the source callbacks also return line numbers to the host; those are
ignored here because the host discards them). -/
def visitNode (env : Env) (cfg : Options) (node : Node) : Except String (List Diag × Node) :=
  match node.type with
  | NodeType.BlockStatement =>
    (match canApplyRule node node.type cfg with
    | Except.error e => Except.error e
    | Except.ok b =>
      if b then validateBlockForm env cfg node
      else Except.ok ([], node))
  | NodeType.MustacheStatement =>
    (match canApplyRule node node.type cfg with
    | Except.error e => Except.error e
    | Except.ok b =>
      if b then validateNonBlockForm env cfg node
      else Except.ok ([], node))
  | NodeType.ElementNode =>
    if isTruthyOpt cfg.processElements then
      match canApplyRule node node.type cfg with
      | Except.error e => Except.error e
      | Except.ok b =>
        if b then
          match
            (if node.attributes.length ≠ 0 then
              match validateParams env cfg node with
              | Except.error e => Except.error e
              | Except.ok (d, expectedCloseBraceLine, node2) =>
                match validateCloseBrace env node2 expectedCloseBraceLine with
                | Except.error e => Except.error e
                | Except.ok (d2, node3) => Except.ok (d ++ d2, node3)
            else Except.ok (([] : List Diag), node)) with
          | Except.error e => Except.error e
          | Except.ok (dAttrs, node2) =>
            if node2.children.length ≠ 0 then
              match node2.children.getLast? with
              | some lastChild =>
                let expectedStartLine :=
                  if lastChild.type = NodeType.BlockStatement then lastChild.loc.end_.line + 1
                  else lastChild.loc.end_.line
                (match validateClosingTag env node2 expectedStartLine with
                | Except.error e => Except.error e
                | Except.ok (dTag, node3) => Except.ok (dAttrs ++ dTag, node3))
              | none => Except.ok (dAttrs, node2)
            else Except.ok (dAttrs, node2)
        else Except.ok ([], node)
    else Except.ok ([], node)
  | _ => Except.ok ([], node)

/-- Projection of a diagnostic to the actual/expected coordinate pair its message
embeds. -/
def diagProj (dg : Diag) : Coord × Coord := (dg.actual, dg.expected)

/-- The expected-line advance of one loop pass, exactly as the source computes it:
read the value type (falling back to the entry type), pull to the entry end line
for a multi-line sub-expression, to the value end line for a mustache value (the
crash of the source on a valueless mustache entry is mapped to the unchanged line
here; the run lemmas only ever use this under a successful run, which excludes
that entry). -/
def codeAdvanceLine (p : Param) (cur : Int) : Int :=
  let t : NodeType := match p.value with
    | some v => v.type
    | none => p.type
  if t = NodeType.SubExpression then
    (if p.loc.start.line ≠ p.loc.end_.line then p.loc.end_.line else cur)
  else if t = NodeType.MustacheStatement then
    (match p.value with
     | some v => v.loc.end_.line
     | none => cur)
  else cur

/-- The running expected line after a whole entry list. -/
def codeFinalLine (els : Int) : List Param → Int
  | [] => els
  | p :: ps => codeFinalLine (codeAdvanceLine p els + 1) ps

/-- The actual/expected coordinate pairs of the diagnostics a loop run emits. -/
def codeReportPairs (ecol els : Int) : List Param → List (Coord × Coord)
  | [] => []
  | p :: ps =>
    (if els ≠ p.loc.start.line ∨ ecol ≠ p.loc.start.column then
       [(p.loc.start, ({ line := els, column := ecol } : Coord))]
     else []) ++ codeReportPairs ecol (codeAdvanceLine p els + 1) ps

/-- Claim-side advance for claim C2, following the claim wording: the next expected
line is pulled forward to the previous entry value end line when that value is a
multi-line sub-expression or an inline invocation (a positional entry is its own
value). -/
def specAdvanceLine (p : Param) (cur : Int) : Int :=
  match p.value with
  | some v =>
    if v.type = NodeType.SubExpression then
      (if v.loc.start.line ≠ v.loc.end_.line then v.loc.end_.line else cur)
    else if v.type = NodeType.MustacheStatement then v.loc.end_.line
    else cur
  | none =>
    if p.type = NodeType.SubExpression then
      (if p.loc.start.line ≠ p.loc.end_.line then p.loc.end_.line else cur)
    else cur

/-- Claim-side report pairs for claim C2: an entry is reported exactly when its
recorded start differs from the running expected coordinate in line or column. -/
def specReportPairs (ecol els : Int) : List Param → List (Coord × Coord)
  | [] => []
  | p :: ps =>
    (if els ≠ p.loc.start.line ∨ ecol ≠ p.loc.start.column then
       [(p.loc.start, ({ line := els, column := ecol } : Coord))]
     else []) ++ specReportPairs ecol (specAdvanceLine p els + 1) ps

/-- Well-formedness of an entry used by claim C2: an entry whose value is a
sub-expression ends on the line its value ends on, and is single-line exactly when
its value is (true of parsed hash pairs and attributes, whose span closes with the
value span). -/
def specWFB (p : Param) : Bool :=
  match p.value with
  | some v =>
    if v.type = NodeType.SubExpression then
      decide (p.loc.end_.line = v.loc.end_.line) &&
        decide ((p.loc.start.line = p.loc.end_.line) ↔ (v.loc.start.line = v.loc.end_.line))
    else true
  | none => true

/-- Whether the node path location carries the synthetic marker. -/
def syntheticPathB (node : Node) : Bool :=
  match node.path with
  | some p => p.locSource == some "(synthetic)"
  | none => false

/-- Claim-side first expected line for claim C2: node start line plus one, shifted
back by one for an invocation whose path location is synthetic. -/
def specBaseline (node : Node) : Int :=
  if node.type = NodeType.ElementNode then node.loc.start.line + 1
  else if syntheticPathB node then node.loc.start.line
  else node.loc.start.line + 1

/-- The full entry sequence validateParams walks for a node: the attributes of a
markup element, else the positional params followed by the hash pairs. -/
def paramSeq (node : Node) : List Param :=
  if node.type = NodeType.ElementNode then node.attributes
  else node.params ++ node.hash.pairs

/-- Claim-side description of the one in-place correction of claim C8: the first
entry of the list has its recorded start column decremented once. -/
def decFirstStartColumn : List Param → List Param
  | [] => []
  | p :: ps => { p with loc := { p.loc with
      start := { p.loc.start with column := p.loc.start.column - 1 } } } :: ps

/-- Claim-side tail for claim C1 as amended: the end coordinate of the
named-argument group whenever named arguments exist, and only otherwise the end
coordinate of the last positional argument. -/
def specBlockParamTail (node : Node) : Coord :=
  if node.hash.pairs ≠ [] then node.hash.loc.end_
  else
    match node.params.getLast? with
    | some p => p.loc.end_
    | none => node.loc.end_

/-- An empty source buffer used by the concrete runs. -/
def envEmpty : Env := { lines := [] }

/-- A shared concrete options record with the default geometry. -/
def cfgShared : Options := { maxLength := 80, indentation := 2, processElements := some true }

/-- Span constructor shorthand for the concrete fixtures. -/
def mkLoc (l1 c1 l2 c2 : Int) : Loc :=
  { start := { line := l1, column := c1 }, end_ := { line := l2, column := c2 } }

/-- A baseline entry all concrete entries are built from. -/
def basePm : Param :=
  { type := NodeType.PathExpression, loc := mkLoc 0 0 0 0, original := none,
    key := none, name := none, value := none, path := none }

/-- A baseline node all concrete nodes are built from. -/
def baseNd : Node :=
  { type := NodeType.MustacheStatement, loc := mkLoc 0 0 0 0, path := none,
    params := [], hash := { pairs := [], loc := mkLoc 0 0 0 0 }, program := none,
    attributes := [], children := [], tag := "", selfClosing := false }

/-- A concrete positional-argument entry ending on line 2, for claim C1. -/
def pmC1 : Param :=
  { basePm with loc := mkLoc 2 2 2 10, original := some { text := "bar", truthy := true } }

/-- A concrete hash-pair entry whose pair and value spans end at line 3 column 21. -/
def pairC1 : Param :=
  { basePm with type := NodeType.HashPair, loc := mkLoc 3 2 3 21, key := some { text := "k", truthy := true }, value := some { type := NodeType.PathExpression, loc := mkLoc 3 4 3 21 } }

/-- Concrete block invocation with one positional argument ending on line 2 and a
named-argument group ending on line 3, for claim C1. -/
def nodeC1 : Node :=
  { baseNd with
    type := NodeType.BlockStatement,
    loc := mkLoc 1 0 5 20,
    path := some { original := "foo", locSource := none },
    params := [pmC1],
    hash := { pairs := [pairC1], loc := mkLoc 3 2 3 21 },
    program := some { loc := mkLoc 4 2 5 0, blockParams := ["x"] } }

/-- A concrete aligned positional-argument entry on line 2. -/
def pmW2 : Param :=
  { basePm with loc := mkLoc 2 2 2 5, original := some { text := "bar", truthy := true } }

/-- A concrete aligned hash-pair entry on line 3. -/
def pairW2 : Param :=
  { basePm with type := NodeType.HashPair, loc := mkLoc 3 2 3 8, key := some { text := "k", truthy := true }, value := some { type := NodeType.PathExpression, loc := mkLoc 3 4 3 8 } }

/-- Concrete well-formed block invocation with one aligned positional argument and
one aligned hash pair, used as a witness run. -/
def nodeW2 : Node :=
  { baseNd with
    type := NodeType.BlockStatement,
    loc := mkLoc 1 0 4 2,
    path := some { original := "foo", locSource := none },
    params := [pmW2],
    hash := { pairs := [pairW2], loc := mkLoc 3 2 3 8 },
    program := some { loc := mkLoc 4 2 4 2, blockParams := [] } }

/-- Concrete mustache invocation with a synthetic path and one positional argument
placed exactly at line start+1 and column start+indentation. -/
def nodeX2 : Node :=
  { baseNd with
    loc := mkLoc 1 0 3 10,
    path := some { original := "foo", locSource := some "(synthetic)" },
    params := [{ basePm with loc := mkLoc 2 2 2 5, original := some { text := "bar", truthy := true } }] }

/-- Concrete mustache invocation with a synthetic path and no arguments at all. -/
def nodeX5 : Node :=
  { baseNd with
    loc := mkLoc 1 0 2 5,
    path := some { original := "foo", locSource := some "(synthetic)" } }

/-- Concrete mustache invocation with an ordinary path and no arguments at all. -/
def nodeW5 : Node :=
  { baseNd with
    loc := mkLoc 1 0 2 5,
    path := some { original := "foo", locSource := none } }

/-- A concrete number-literal entry for the value 0: its original field is falsy
and it carries no path sub-node, like the parse tree of a literal. -/
def pmX3 : Param :=
  { basePm with type := NodeType.NumberLiteral, loc := mkLoc 2 1 2 2, original := some { text := "0", truthy := false } }

/-- Concrete multi-line mustache invocation whose single positional argument is the
number literal 0, mis-indented by one column. -/
def nodeX3 : Node :=
  { baseNd with
    loc := mkLoc 1 0 2 5,
    path := some { original := "foo", locSource := none },
    params := [pmX3] }

/-- Concrete single-line mustache invocation whose opening spans exactly eighty
columns. -/
def nodeW4 : Node :=
  { baseNd with
    loc := mkLoc 1 0 1 80,
    path := some { original := "foo", locSource := none } }

/-- Concrete short single-line mustache invocation with a mis-indented argument,
kept unreported by the gate. -/
def nodeW7 : Node :=
  { baseNd with
    loc := mkLoc 1 0 1 10,
    path := some { original := "foo", locSource := none },
    params := [{ basePm with loc := mkLoc 1 6 1 9, original := some { text := "bar", truthy := true } }] }

/-- Concrete synthetic block invocation with one positional argument, for the
frame-effect witness. -/
def nodeW8 : Node :=
  { baseNd with
    type := NodeType.BlockStatement,
    loc := mkLoc 1 0 3 2,
    path := some { original := "if", locSource := some "(synthetic)" },
    params := [{ basePm with loc := mkLoc 1 3 1 6, original := some { text := "c", truthy := true } }],
    program := some { loc := mkLoc 2 2 3 0, blockParams := [] } }

/-- The node nodeW8 as validateParams leaves it: the first positional argument has
its recorded start column decremented once. -/
def nodeW8mut : Node := { nodeW8 with params := decFirstStartColumn nodeW8.params }

/-- Concrete multi-line mustache invocation whose closing brace sits away from the
expected coordinate. -/
def nodeW9 : Node :=
  { baseNd with
    loc := mkLoc 1 0 3 5,
    path := some { original := "foo", locSource := none } }

/-- The single diagnostic the close-brace validator emits for nodeW9 at expected
line 2. -/
def dW9 : Diag :=
  { kind := DiagKind.closeBraceComponent "foo",
    actual := { line := 3, column := 3 }, expected := { line := 2, column := 0 },
    line := 3, column := 3, source := "\n" }

/-- A concrete mis-indented markup attribute entry. -/
def attrW10 : Param :=
  { basePm with type := NodeType.AttrNode, loc := mkLoc 2 5 2 14, name := some { text := "class", truthy := true }, value := some { type := NodeType.TextNode, loc := mkLoc 2 11 2 14 } }

/-- Concrete multi-line markup element with a mis-indented attribute. -/
def nodeW10 : Node :=
  { baseNd with
    type := NodeType.ElementNode,
    loc := mkLoc 1 0 4 6,
    tag := "div",
    attributes := [attrW10] }

theorem adjustForSynthetic_ok (params : List Param) (type : String) (els : Int)
    (node : Node) (els2 : Int) (params2 : List Param)
    (h : adjustForSynthetic params type els node = Except.ok (els2, params2)) :
    params2 = (if type = "positional" ∧ node.type = NodeType.BlockStatement ∧
        syntheticPathB node = true then decFirstStartColumn params else params)
    ∧ els2 = (if type = "positional" ∧ syntheticPathB node = true then els - 1 else els) := by
  unfold adjustForSynthetic at h
  by_cases ht : type = "positional"
  · simp only [ht, if_true] at h
    cases hp : node.path with
    | none => simp [hp] at h
    | some p =>
      simp only [hp] at h
      have hsyn : syntheticPathB node = (p.locSource == some "(synthetic)") := by
        unfold syntheticPathB; rw [hp]
      by_cases hmark : p.locSource = some "(synthetic)"
      · simp only [hmark, if_true, if_pos rfl] at h
        have hsyn' : syntheticPathB node = true := by
          rw [hsyn]; exact beq_iff_eq.mpr hmark
        by_cases hb : node.type = NodeType.BlockStatement
        · simp only [hb, if_true, if_pos rfl] at h
          cases params with
          | nil => simp at h
          | cons p0 rest =>
            simp only [Except.ok.injEq, Prod.mk.injEq] at h
            refine ⟨?_, ?_⟩
            · rw [if_pos ⟨ht, hb, hsyn'⟩]
              exact h.2.symm ▸ (by simp [decFirstStartColumn])
            · rw [if_pos ⟨ht, hsyn'⟩]; exact h.1.symm
        · simp only [hb, if_false] at h
          rw [if_neg (by simp [hb]), if_pos ⟨ht, hsyn'⟩]
          simp only [Except.ok.injEq, Prod.mk.injEq] at h
          exact ⟨h.2.symm, h.1.symm⟩
      · have hsyn' : syntheticPathB node = false := by
          rw [hsyn]; simp [hmark]
        simp only [hmark, if_false] at h
        rw [if_neg (by simp [hsyn']), if_neg (by simp [hsyn'])]
        simp only [Except.ok.injEq, Prod.mk.injEq] at h
        exact ⟨h.2.symm, h.1.symm⟩
  · simp only [ht, if_false] at h
    rw [if_neg (by simp [ht]), if_neg (by simp [ht])]
    simp only [Except.ok.injEq, Prod.mk.injEq] at h
    exact ⟨h.2.symm, h.1.symm⟩

theorem advanceLineE_ok (p : Param) (els l : Int)
    (h : advanceLineE p els = Except.ok l) : l = codeAdvanceLine p els := by
  unfold advanceLineE at h
  unfold codeAdvanceLine
  rcases hv : p.value with _ | v <;> simp only [hv] at h ⊢
  · by_cases hts : p.type = NodeType.SubExpression
    · rw [if_pos hts] at h ⊢
      exact (Except.ok.injEq _ _ ▸ h).symm
    · by_cases htm : p.type = NodeType.MustacheStatement
      · rw [if_neg hts, if_pos htm] at h
        simp at h
      · rw [if_neg hts, if_neg htm] at h ⊢
        exact (Except.ok.injEq _ _ ▸ h).symm
  · by_cases hts : v.type = NodeType.SubExpression
    · rw [if_pos hts] at h ⊢
      exact (Except.ok.injEq _ _ ▸ h).symm
    · by_cases htm : v.type = NodeType.MustacheStatement
      · rw [if_neg hts, if_pos htm] at h ⊢
        exact (Except.ok.injEq _ _ ▸ h).symm
      · rw [if_neg hts, if_neg htm] at h ⊢
        exact (Except.ok.injEq _ _ ▸ h).symm

theorem iterStep_ok (env : Env) (node : Node) (pt np : String) (ecol : Int)
    (acc : List Diag) (els : Int) (p : Param) (out : List Diag × Int)
    (h : iterStep env node pt np ecol (acc, els) p = Except.ok out) :
    out.1.map diagProj = acc.map diagProj ++
      (if els ≠ p.loc.start.line ∨ ecol ≠ p.loc.start.column then
        [(p.loc.start, ({ line := els, column := ecol } : Coord))] else [])
    ∧ out.2 = codeAdvanceLine p els + 1 := by
  simp only [iterStep] at h
  by_cases hm : els ≠ p.loc.start.line ∨ ecol ≠ p.loc.start.column
  · rw [if_pos hm] at h
    rw [if_pos hm]
    cases hn : paramNameOf p np with
    | error e => rw [hn] at h; simp at h
    | ok nm =>
      rw [hn] at h
      cases ha : advanceLineE p els with
      | error e => rw [ha] at h; simp at h
      | ok l =>
        rw [ha] at h
        simp only [Except.ok.injEq] at h
        rw [← h]
        refine ⟨?_, ?_⟩
        · simp [diagProj, mkParamDiag]
        · simp only []
          rw [advanceLineE_ok p els l ha]
  · rw [if_neg hm] at h
    rw [if_neg hm]
    cases ha : advanceLineE p els with
    | error e => rw [ha] at h; simp at h
    | ok l =>
      rw [ha] at h
      simp only [Except.ok.injEq] at h
      rw [← h]
      refine ⟨by simp, ?_⟩
      simp only []
      rw [advanceLineE_ok p els l ha]

theorem iterLoop_ok (env : Env) (node : Node) (pt np : String) (ecol : Int) :
    ∀ (ps : List Param) (acc : List Diag) (els : Int) (out : List Diag × Int),
      iterLoop env node pt np ecol ps acc els = Except.ok out →
      out.1.map diagProj = acc.map diagProj ++ codeReportPairs ecol els ps
      ∧ out.2 = codeFinalLine els ps := by
  intro ps
  induction ps with
  | nil =>
    intro acc els out h
    unfold iterLoop at h
    simp only [Except.ok.injEq] at h
    rw [← h]
    simp [codeReportPairs, codeFinalLine]
  | cons p ps ih =>
    intro acc els out h
    unfold iterLoop at h
    cases hstep : iterStep env node pt np ecol (acc, els) p with
    | error e => rw [hstep] at h; simp at h
    | ok st2 =>
      rw [hstep] at h
      have hs := iterStep_ok env node pt np ecol acc els p st2 hstep
      have hi := ih st2.1 st2.2 out h
      refine ⟨?_, ?_⟩
      · rw [hi.1, hs.1, hs.2]
        simp only [codeReportPairs]
        rw [List.append_assoc]
      · rw [hi.2, hs.2]
        simp only [codeFinalLine]

theorem iterateParams_ok (env : Env) (params : List Param) (type : String)
    (els ecol : Int) (node : Node) (diags : List Diag) (fl : Int) (params2 : List Param)
    (h : iterateParams env params type els ecol node = Except.ok (diags, fl, params2)) :
    ∃ els2, adjustForSynthetic params type els node = Except.ok (els2, params2)
      ∧ diags.map diagProj = codeReportPairs ecol els2 params2
      ∧ fl = codeFinalLine els2 params2 := by
  simp only [iterateParams] at h
  cases hadj : adjustForSynthetic params type els node with
  | error e => rw [hadj] at h; simp at h
  | ok pr =>
    obtain ⟨els2, params3⟩ := pr
    rw [hadj] at h
    dsimp only at h
    cases hloop : iterLoop env node
        (if type = "positional" then ("positional param", "original")
          else if type = "htmlAttribute" then ("htmlAttribute", "name")
          else ("attribute", "key")).1
        (if type = "positional" then ("positional param", "original")
          else if type = "htmlAttribute" then ("htmlAttribute", "name")
          else ("attribute", "key")).2 ecol params3 [] els2 with
    | error e => rw [hloop] at h; simp at h
    | ok st =>
      obtain ⟨dgs, fl2⟩ := st
      rw [hloop] at h
      dsimp only at h
      simp only [Except.ok.injEq, Prod.mk.injEq] at h
      obtain ⟨h1, h2, h3⟩ := h
      subst h1
      subst h2
      subst h3
      have hl := iterLoop_ok env node _ _ ecol _ [] els2 _ hloop
      exact ⟨els2, rfl, by simpa using hl.1, hl.2⟩

theorem codeAdvanceLine_eq_spec (p : Param) (hwf : specWFB p = true) (cur : Int) :
    codeAdvanceLine p cur = specAdvanceLine p cur := by
  unfold codeAdvanceLine specAdvanceLine
  unfold specWFB at hwf
  rcases hv : p.value with _ | v <;> simp only [hv] at hwf ⊢
  · by_cases hts : p.type = NodeType.SubExpression
    · rw [if_pos hts, if_pos hts]
    · rw [if_neg hts, if_neg hts]
      by_cases htm : p.type = NodeType.MustacheStatement
      · rw [if_pos htm]
      · rw [if_neg htm]
  · by_cases hts : v.type = NodeType.SubExpression
    · rw [if_pos hts] at hwf
      rw [if_pos hts, if_pos hts]
      simp only [Bool.and_eq_true, decide_eq_true_eq] at hwf
      obtain ⟨hend, hiff⟩ := hwf
      by_cases hml : p.loc.start.line = p.loc.end_.line
      · have hvml := hiff.mp hml
        rw [if_neg (fun hc => hc hml), if_neg (fun hc => hc hvml)]
      · have hvml : ¬v.loc.start.line = v.loc.end_.line := fun hc => hml (hiff.mpr hc)
        rw [if_pos hml, if_pos hvml]
        exact hend
    · rw [if_neg hts, if_neg hts]

theorem codeReportPairs_eq_spec (ecol : Int) :
    ∀ (ps : List Param) (els : Int), (∀ p ∈ ps, specWFB p = true) →
      codeReportPairs ecol els ps = specReportPairs ecol els ps := by
  intro ps
  induction ps with
  | nil => intro els _; rfl
  | cons p ps ih =>
    intro els hwf
    unfold codeReportPairs specReportPairs
    rw [codeAdvanceLine_eq_spec p (hwf p (by simp)) els]
    rw [ih (specAdvanceLine p els + 1) (fun q hq => hwf q (by simp [hq]))]

theorem codeReportPairs_append (ecol : Int) :
    ∀ (xs ys : List Param) (els : Int),
      codeReportPairs ecol els (xs ++ ys)
        = codeReportPairs ecol els xs ++ codeReportPairs ecol (codeFinalLine els xs) ys := by
  intro xs
  induction xs with
  | nil => intro ys els; simp [codeReportPairs, codeFinalLine]
  | cons x xs ih =>
    intro ys els
    simp only [List.cons_append, codeReportPairs, codeFinalLine, List.append_eq]
    rw [ih ys (codeAdvanceLine x els + 1), List.append_assoc]

theorem validateParams_ok_cases (env : Env) (cfg : Options) (node : Node)
    (diags : List Diag) (fl : Int) (node2 : Node)
    (h : validateParams env cfg node = Except.ok (diags, fl, node2)) :
    (if node.type = NodeType.ElementNode then
      ∃ attrs2 els2, node2 = { node with attributes := attrs2 }
        ∧ adjustForSynthetic node.attributes "htmlAttribute" (node.loc.start.line + 1) node
            = Except.ok (els2, attrs2)
        ∧ diags.map diagProj
            = codeReportPairs (node.loc.start.column + cfg.indentation) els2 attrs2
        ∧ fl = codeFinalLine els2 attrs2
    else
      ∃ params2 els2 d1 d2,
        node2 = { node with params := params2 }
        ∧ adjustForSynthetic node.params "positional" (node.loc.start.line + 1) node
            = Except.ok (els2, params2)
        ∧ diags = d1 ++ d2
        ∧ d1.map diagProj
            = codeReportPairs (node.loc.start.column + cfg.indentation) els2 params2
        ∧ d2.map diagProj
            = codeReportPairs (node.loc.start.column + cfg.indentation)
                (codeFinalLine els2 params2) node.hash.pairs
        ∧ fl = codeFinalLine (codeFinalLine els2 params2) node.hash.pairs) := by
  simp only [validateParams] at h
  by_cases he : node.type = NodeType.ElementNode
  · rw [if_pos he] at h
    rw [if_pos he]
    cases hit : iterateParams env node.attributes "htmlAttribute" (node.loc.start.line + 1)
        (node.loc.start.column + cfg.indentation) node with
    | error e => rw [hit] at h; simp at h
    | ok tr =>
      obtain ⟨d, l, attrs2⟩ := tr
      rw [hit] at h
      dsimp only at h
      simp only [Except.ok.injEq, Prod.mk.injEq] at h
      obtain ⟨hd, hl, hn⟩ := h
      obtain ⟨els2, hadj, hmap, hfl⟩ := iterateParams_ok env node.attributes "htmlAttribute"
        (node.loc.start.line + 1) (node.loc.start.column + cfg.indentation) node d l attrs2 hit
      exact ⟨attrs2, els2, hn.symm, hadj, hd ▸ hmap, hl ▸ hfl⟩
  · rw [if_neg he] at h
    rw [if_neg he]
    cases hit : iterateParams env node.params "positional" (node.loc.start.line + 1)
        (node.loc.start.column + cfg.indentation) node with
    | error e => rw [hit] at h; simp at h
    | ok tr =>
      obtain ⟨d1, l1, params2⟩ := tr
      rw [hit] at h
      dsimp only at h
      cases hit2 : iterateParams env ({ node with params := params2 } : Node).hash.pairs
          "attribute" l1 (node.loc.start.column + cfg.indentation)
          ({ node with params := params2 } : Node) with
      | error e => rw [hit2] at h; simp at h
      | ok tr2 =>
        obtain ⟨d2, l2, pairs2⟩ := tr2
        rw [hit2] at h
        dsimp only at h
        simp only [Except.ok.injEq, Prod.mk.injEq] at h
        obtain ⟨hd, hl, hn⟩ := h
        obtain ⟨els2, hadj, hmap, hfl⟩ := iterateParams_ok env node.params "positional"
          (node.loc.start.line + 1) (node.loc.start.column + cfg.indentation) node d1 l1 params2 hit
        obtain ⟨els3, hadj2, hmap2, hfl2⟩ := iterateParams_ok env
          ({ node with params := params2 } : Node).hash.pairs "attribute" l1
          (node.loc.start.column + cfg.indentation) ({ node with params := params2 } : Node)
          d2 l2 pairs2 hit2
        have hadj2' := adjustForSynthetic_ok _ _ _ _ _ _ hadj2
        rw [if_neg (by simp)] at hadj2'
        rw [if_neg (by simp)] at hadj2'
        obtain ⟨hpairs, hels3⟩ := hadj2'
        refine ⟨params2, els2, d1, d2, ?_, hadj, hd.symm, hmap, ?_, ?_⟩
        · rw [← hn]
          subst hpairs
          rfl
        · rw [hmap2, hpairs, hels3, hfl]
        · rw [← hl, hfl2, hpairs, hels3, hfl]

theorem validateCloseBrace_ok_node (env : Env) (node : Node) (l : Int)
    (d : List Diag) (n2 : Node)
    (h : validateCloseBrace env node l = Except.ok (d, n2)) : n2 = node := by
  simp only [validateCloseBrace] at h
  split at h
  · exact absurd h (by simp)
  · cases hg : (if node.type = NodeType.ElementNode then Except.ok node.tag
        else match node.path with
          | some p => Except.ok p.original
          | none => Except.error "TypeError: Cannot read original of undefined" :
          Except String String) with
    | error e => rw [hg] at h; simp at h
    | ok cn =>
      rw [hg] at h
      dsimp only at h
      split at h <;> split at h <;>
        (simp only [Except.ok.injEq, Prod.mk.injEq] at h; exact h.2.symm)

/-- Claim C9: validateCloseBrace is idempotent — a successful run leaves the node
untouched, and running it again on that node with the same expected line yields
the identical diagnostic list (or none). -/
theorem validateCloseBrace_idempotent (env : Env) (node : Node) (l : Int)
    (d : List Diag) (node2 : Node)
    (h : validateCloseBrace env node l = Except.ok (d, node2)) :
    node2 = node ∧ validateCloseBrace env node2 l = Except.ok (d, node2) := by
  have hn := validateCloseBrace_ok_node env node l d node2 h
  subst hn
  exact ⟨rfl, h⟩

/-- Witness for claim C9: a concrete mismatching run emits one close-brace
diagnostic, and the second run reproduces it exactly. -/
theorem validateCloseBrace_idempotent_witness :
    nodeW9 = nodeW9 ∧ validateCloseBrace envEmpty nodeW9 2 = Except.ok ([dW9], nodeW9) :=
  validateCloseBrace_idempotent envEmpty nodeW9 2 [dW9] nodeW9 (by decide)

/-- Claim C4: with end being the body start for a block form, the first child
start for a markup element with children, and the node end otherwise, the gate on
a single-line opening applies exactly when its width exceeds maxLength — equality
is not applicable, one character over is — and a multi-line opening always
applies. -/
theorem canApplyRule_gate (node : Node) (cfg : Options) (e : Coord)
    (h : getEndLocationForOpen node = Except.ok e) :
    (e.line = node.loc.start.line →
      canApplyRule node node.type cfg
        = Except.ok (decide (e.column - node.loc.start.column > cfg.maxLength)))
    ∧ (e.line = node.loc.start.line → e.column - node.loc.start.column = cfg.maxLength →
      canApplyRule node node.type cfg = Except.ok false)
    ∧ (e.line = node.loc.start.line → e.column - node.loc.start.column = cfg.maxLength + 1 →
      canApplyRule node node.type cfg = Except.ok true)
    ∧ (e.line ≠ node.loc.start.line → canApplyRule node node.type cfg = Except.ok true)
    ∧ (node.type = NodeType.BlockStatement → node.program.map (fun pr => pr.loc.start) = some e)
    ∧ (node.type = NodeType.ElementNode → node.children ≠ [] →
        (node.children.head?).map (fun c => c.loc.start) = some e)
    ∧ (node.type ≠ NodeType.BlockStatement →
        (node.type = NodeType.ElementNode → node.children = []) → e = node.loc.end_) := by
  refine ⟨?_, ?_, ?_, ?_, ?_, ?_, ?_⟩
  · intro hline
    simp only [canApplyRule, h]
    rw [if_pos hline.symm]
  · intro hline hcol
    simp only [canApplyRule, h]
    rw [if_pos hline.symm, hcol]
    simp
  · intro hline hcol
    simp only [canApplyRule, h]
    rw [if_pos hline.symm, hcol]
    simp only [Except.ok.injEq, decide_eq_true_eq]
    omega
  · intro hline
    simp only [canApplyRule, h]
    rw [if_neg (fun hc => hline hc.symm)]
  · intro hb
    unfold getEndLocationForOpen at h
    rw [if_pos hb] at h
    cases hpr : node.program with
    | none => rw [hpr] at h; simp at h
    | some pr =>
      rw [hpr] at h
      simp only [Except.ok.injEq] at h
      simp [h]
  · intro hel hch
    unfold getEndLocationForOpen at h
    rw [if_neg (by simp [hel])] at h
    rw [if_pos ⟨hel, List.length_pos.mpr hch⟩] at h
    cases hhd : node.children.head? with
    | none => rw [hhd] at h; simp at h
    | some c =>
      rw [hhd] at h
      simp only [Except.ok.injEq] at h
      simp [hhd, h]
  · intro hnb hce
    unfold getEndLocationForOpen at h
    rw [if_neg hnb] at h
    by_cases hel : node.type = NodeType.ElementNode
    · rw [if_neg (by simp [hce hel])] at h
      simp only [Except.ok.injEq] at h
      exact h.symm
    · rw [if_neg (by simp [hel])] at h
      simp only [Except.ok.injEq] at h
      exact h.symm

/-- Witness for claim C4: a concrete single-line invocation spanning exactly
eighty columns is not applicable under the default maximum. -/
theorem canApplyRule_gate_witness :
    canApplyRule nodeW4 nodeW4.type cfgShared = Except.ok false :=
  (canApplyRule_gate nodeW4 cfgShared { line := 1, column := 80 } (by decide)).2.1
    (by decide) (by decide)

/-- Claim C7: whenever the gate answers false for a visited node, the visitor
emits no diagnostic for it and leaves it untouched. -/
theorem visitNode_gate_false (env : Env) (cfg : Options) (node : Node)
    (h : canApplyRule node node.type cfg = Except.ok false) :
    visitNode env cfg node = Except.ok ([], node) := by
  cases ht : node.type <;> rw [ht] at h <;> simp [visitNode, ht, h]

/-- Witness for claim C7: a concrete short single-line invocation with a
mis-indented argument produces no diagnostic because the gate answers false. -/
theorem visitNode_gate_false_witness :
    visitNode envEmpty cfgShared nodeW7 = Except.ok ([], nodeW7) :=
  visitNode_gate_false envEmpty cfgShared nodeW7 (by decide)

/-- Claim C6 (amended): true enables everything with the defaults, false and
absent disable, a mapping overrides the defaults key by key; a number or a string
raises the configuration error carrying the usage text; null — which typeof
classifies as an object — instead raises a TypeError from the key probe; nothing
else raises. -/
theorem parseConfig_shapes (ml ind : Option Int) (pe : Option Bool) (n : Int) (s : String) :
    parseConfig (ConfigValue.boolV true)
      = Except.ok (ParseResult.options { maxLength := 80, indentation := 2, processElements := some true })
    ∧ parseConfig (ConfigValue.boolV false) = Except.ok ParseResult.disabled
    ∧ parseConfig ConfigValue.undefinedV = Except.ok ParseResult.disabled
    ∧ parseConfig (ConfigValue.objV ml ind pe)
      = Except.ok (ParseResult.options { maxLength := ml.getD 80, indentation := ind.getD 2, processElements := pe })
    ∧ parseConfig (ConfigValue.numV n) = Except.error (ConfigError.configurationError usageLines)
    ∧ parseConfig (ConfigValue.strV s) = Except.error (ConfigError.configurationError usageLines)
    ∧ parseConfig ConfigValue.nullV
      = Except.error (ConfigError.typeError "TypeError: Cannot use in operator to search in null") := by
  refine ⟨rfl, rfl, rfl, ?_, rfl, rfl, rfl⟩
  cases ml <;> cases ind <;> cases pe <;> rfl

/-- Counterexample for claim C6 as frozen: a null configuration raises a
TypeError, not the ConfigurationError with the usage text the claim requires for
every non-accepted shape. -/
theorem parseConfig_null_cex :
    parseConfig ConfigValue.nullV
      = Except.error (ConfigError.typeError "TypeError: Cannot use in operator to search in null")
    ∧ ConfigError.typeError "TypeError: Cannot use in operator to search in null"
      ≠ ConfigError.configurationError usageLines :=
  ⟨rfl, by simp⟩

/-- Claim C10: a mapping configuration without the process-elements key produces
options with no processElements field, and under such options the element
callback does nothing at all for any markup element. -/
theorem processElements_absent_skips (ml ind : Option Int) (env : Env) (node : Node)
    (h : node.type = NodeType.ElementNode) :
    parseConfig (ConfigValue.objV ml ind none)
      = Except.ok (ParseResult.options { maxLength := ml.getD 80, indentation := ind.getD 2, processElements := none })
    ∧ ∀ mlv indv : Int,
        visitNode env { maxLength := mlv, indentation := indv, processElements := none } node
          = Except.ok ([], node) := by
  constructor
  · cases ml <;> cases ind <;> rfl
  · intro mlv indv
    simp [visitNode, h, isTruthyOpt]

/-- Witness for claim C10: a concrete mapping with only a length override leaves
processElements absent, and a concrete mis-indented element is skipped entirely. -/
theorem processElements_absent_skips_witness :
    parseConfig (ConfigValue.objV (some 100) none none)
      = Except.ok (ParseResult.options { maxLength := 100, indentation := 2, processElements := none })
    ∧ visitNode envEmpty { maxLength := 100, indentation := 2, processElements := none } nodeW10
        = Except.ok ([], nodeW10) := by
  have ht := processElements_absent_skips (some 100) none envEmpty nodeW10 rfl
  exact ⟨ht.1, ht.2 100 2⟩

/-- Claim C3 at its failing input: visiting a multi-line mustache whose
mis-indented positional argument is the number literal 0 makes the rule throw a
TypeError — the falsy original falls back to a path the literal does not have —
instead of logging or doing nothing. -/
theorem visitNode_c3_throws :
    visitNode envEmpty cfgShared nodeX3
      = Except.error "TypeError: Cannot read original of undefined" := by
  decide

/-- Claim C8: the position calculator mutates the tree spans in exactly one case
— a block form whose path location is marked synthetic has the recorded start
column of its first positional argument decremented once — and in every other
case validateParams and iterateParams return every span unchanged. -/
theorem validateParams_frame (env : Env) (cfg : Options) (node : Node) :
    (∀ diags fl node2, validateParams env cfg node = Except.ok (diags, fl, node2) →
      node2 = (if node.type = NodeType.BlockStatement ∧ syntheticPathB node = true
        then { node with params := decFirstStartColumn node.params } else node))
    ∧ (∀ params type els ecol diags fl params2, type ≠ "positional" →
        iterateParams env params type els ecol node = Except.ok (diags, fl, params2) →
        params2 = params)
    ∧ (∀ params els ecol diags fl params2,
        ¬(node.type = NodeType.BlockStatement ∧ syntheticPathB node = true) →
        iterateParams env params "positional" els ecol node = Except.ok (diags, fl, params2) →
        params2 = params) := by
  refine ⟨?_, ?_, ?_⟩
  · intro diags fl node2 h
    have hc := validateParams_ok_cases env cfg node diags fl node2 h
    by_cases he : node.type = NodeType.ElementNode
    · rw [if_pos he] at hc
      obtain ⟨attrs2, els2, hn2, hadj, -, -⟩ := hc
      have hps := (adjustForSynthetic_ok _ _ _ _ _ _ hadj).1
      rw [if_neg (by simp)] at hps
      rw [if_neg (by simp [he])]
      rw [hn2, hps]
    · rw [if_neg he] at hc
      obtain ⟨params2, els2, d1, d2, hn2, hadj, -, -, -, -⟩ := hc
      have hps := (adjustForSynthetic_ok _ _ _ _ _ _ hadj).1
      rw [hn2, hps]
      by_cases hbs : node.type = NodeType.BlockStatement ∧ syntheticPathB node = true
      · rw [if_pos ⟨rfl, hbs.1, hbs.2⟩, if_pos hbs]
      · rw [if_neg (fun hc2 => hbs ⟨hc2.2.1, hc2.2.2⟩), if_neg hbs]
  · intro params type els ecol diags fl params2 ht h
    obtain ⟨els2, hadj, -, -⟩ :=
      iterateParams_ok env params type els ecol node diags fl params2 h
    have hps := (adjustForSynthetic_ok _ _ _ _ _ _ hadj).1
    rw [if_neg (fun hc2 => ht hc2.1)] at hps
    exact hps
  · intro params els ecol diags fl params2 hnb h
    obtain ⟨els2, hadj, -, -⟩ :=
      iterateParams_ok env params "positional" els ecol node diags fl params2 h
    have hps := (adjustForSynthetic_ok _ _ _ _ _ _ hadj).1
    rw [if_neg (fun hc2 => hnb ⟨hc2.2.1, hc2.2.2⟩)] at hps
    exact hps

/-- Witness for claim C8: a concrete synthetic block run decrements exactly the
first positional argument column. -/
theorem validateParams_frame_witness :
    nodeW8mut = (if nodeW8.type = NodeType.BlockStatement ∧ syntheticPathB nodeW8 = true
      then { nodeW8 with params := decFirstStartColumn nodeW8.params } else nodeW8) :=
  (validateParams_frame envEmpty cfgShared nodeW8).1 [] 2 nodeW8mut (by decide)

/-- Claim C2 (amended): over the whole entry sequence of a node (well-formed in
that an entry whose value is a sub-expression spans the lines of that value), the
expected column of every entry is node start column plus indentation; the first
expected line is node start line plus one, shifted back by one when the
invocation path location is marked synthetic; each later expected line is the
previous advancing line plus one, pulled to the previous entry value end line
for a multi-line sub-expression or a mustache value; and an entry is reported
exactly when its recorded start (after the synthetic correction, if any) differs
from the expected coordinate in line or in column. -/
theorem validateParams_report_pairs (env : Env) (cfg : Options) (node : Node)
    (diags : List Diag) (fl : Int) (node2 : Node)
    (hwf : ∀ p ∈ paramSeq node2, specWFB p = true)
    (h : validateParams env cfg node = Except.ok (diags, fl, node2)) :
    diags.map diagProj
      = specReportPairs (node.loc.start.column + cfg.indentation) (specBaseline node)
          (paramSeq node2) := by
  have hc := validateParams_ok_cases env cfg node diags fl node2 h
  by_cases he : node.type = NodeType.ElementNode
  · rw [if_pos he] at hc
    obtain ⟨attrs2, els2, hn2, hadj, hmap, -⟩ := hc
    have hadj' := adjustForSynthetic_ok _ _ _ _ _ _ hadj
    rw [if_neg (by simp), if_neg (by simp)] at hadj'
    obtain ⟨ha2, he2⟩ := hadj'
    have hseq : paramSeq node2 = attrs2 := by
      rw [hn2]; simp [paramSeq, he]
    rw [hseq, hmap, he2]
    rw [codeReportPairs_eq_spec _ _ _ (by rw [← hseq]; exact hwf)]
    unfold specBaseline
    rw [if_pos he]
  · rw [if_neg he] at hc
    obtain ⟨params2, els2, d1, d2, hn2, hadj, hdd, hm1, hm2, -⟩ := hc
    have hadj' := adjustForSynthetic_ok _ _ _ _ _ _ hadj
    obtain ⟨-, he2⟩ := hadj'
    have hseq : paramSeq node2 = params2 ++ node.hash.pairs := by
      rw [hn2]; simp [paramSeq, he]
    have hbase : els2 = specBaseline node := by
      rw [he2]
      unfold specBaseline
      rw [if_neg he]
      by_cases hsy : syntheticPathB node = true
      · rw [if_pos ⟨rfl, hsy⟩, if_pos hsy]
        omega
      · rw [if_neg (fun hc2 => hsy hc2.2), if_neg hsy]
    rw [hseq, hdd, List.map_append, hm1, hm2, ← codeReportPairs_append, hbase]
    exact codeReportPairs_eq_spec _ _ _ (by rw [hseq] at hwf; exact hwf)

/-- Witness for claim C2: a concrete aligned block invocation with one positional
argument and one hash pair produces no diagnostics, matching the empty claim-side
report list. -/
theorem validateParams_report_pairs_witness :
    ([] : List Diag).map diagProj
      = specReportPairs (nodeW2.loc.start.column + cfgShared.indentation)
          (specBaseline nodeW2) (paramSeq nodeW2) :=
  validateParams_report_pairs envEmpty cfgShared nodeW2 [] 4 nodeW2 (by decide) (by decide)

/-- Counterexample for claim C2 as frozen: on a synthetic-path mustache whose
single positional argument sits exactly at line start+1 and column
start+indentation — the coordinate the frozen claim expects — the rule still
reports one diagnostic, because the code shifts the baseline back by one. -/
theorem validateParams_c2_cex :
    (validateParams envEmpty cfgShared nodeX2).map (fun r => r.1.length) = Except.ok 1
    ∧ nodeX2.params.map (fun p => p.loc.start)
        = [{ line := nodeX2.loc.start.line + 1,
             column := nodeX2.loc.start.column + cfgShared.indentation }]
    ∧ nodeX2.hash.pairs = [] :=
  ⟨by decide, by decide, rfl⟩

/-- Claim C5 (amended): for a node with empty parameter, hash-pair and attribute
sequences whose path location is not marked synthetic (markup elements, which
have no path read, included), validateParams emits nothing, performs no
comparison, and returns the unmodified node with the baseline start line plus
one. -/
theorem validateParams_empty_seqs (env : Env) (cfg : Options) (node : Node)
    (hp : node.params = []) (hh : node.hash.pairs = []) (ha : node.attributes = [])
    (hs : node.type = NodeType.ElementNode ∨
      (node.path.isSome = true ∧ syntheticPathB node = false)) :
    validateParams env cfg node = Except.ok ([], node.loc.start.line + 1, node) := by
  obtain ⟨nt, nl, npa, nps, nh, npr, nat, nch, ntg, nsc⟩ := node
  obtain ⟨nhp, nhl⟩ := nh
  dsimp only at hp hh ha hs ⊢
  subst hp
  subst hh
  subst ha
  by_cases he : nt = NodeType.ElementNode
  · simp only [validateParams]
    rw [if_pos he]
    rfl
  · have hpath : npa.isSome = true ∧
        syntheticPathB ⟨nt, nl, npa, [], ⟨[], nhl⟩, npr, [], nch, ntg, nsc⟩ = false :=
      hs.resolve_left he
    obtain ⟨hsome, hsyn⟩ := hpath
    obtain ⟨p, hp'⟩ := Option.isSome_iff_exists.mp hsome
    subst hp'
    have hns : ¬p.locSource = some "(synthetic)" := by
      intro hcontra
      have hb : syntheticPathB ⟨nt, nl, some p, [], ⟨[], nhl⟩, npr, [], nch, ntg, nsc⟩
          = true := by
        unfold syntheticPathB
        simp [hcontra]
      rw [hb] at hsyn
      exact Bool.noConfusion hsyn
    simp only [validateParams]
    rw [if_neg he]
    have h1 : iterateParams env [] "positional" (nl.start.line + 1)
        (nl.start.column + cfg.indentation) ⟨nt, nl, some p, [], ⟨[], nhl⟩, npr, [], nch, ntg, nsc⟩
        = Except.ok ([], nl.start.line + 1, []) := by
      simp only [iterateParams, adjustForSynthetic, if_pos rfl]
      rw [if_neg hns]
      simp [iterLoop]
    rw [h1]
    rfl

/-- Witness for claim C5: a concrete argument-free non-synthetic mustache returns
the baseline line two with no diagnostics and the node unchanged. -/
theorem validateParams_empty_seqs_witness :
    validateParams envEmpty cfgShared nodeW5 = Except.ok ([], 2, nodeW5) := by
  have ht := validateParams_empty_seqs envEmpty cfgShared nodeW5 rfl rfl rfl
    (Or.inr (by decide))
  simpa using ht

/-- Counterexample for claim C5 as frozen: a synthetic-path mustache with all
sequences empty returns baseline start line (1), not start line plus one (2). -/
theorem validateParams_c5_cex :
    validateParams envEmpty cfgShared nodeX5 = Except.ok ([], 1, nodeX5)
    ∧ nodeX5.loc.start.line + 1 = 2
    ∧ (1 : Int) ≠ 2 :=
  ⟨by decide, by decide, by decide⟩

/-- Claim C1 (amended): for a block invocation with arguments, the anchor tail is
the end coordinate of the named-argument group whenever any named arguments
exist, and only otherwise the end coordinate of the last positional argument;
the expected block-parameter coordinate is one line below that tail at the
invocation start column. -/
theorem getBlockParamStartLoc_expected_tail (env : Env) (node : Node)
    (act : Option Coord) (exp : Coord)
    (hargs : node.params ≠ [] ∨ node.hash.pairs ≠ [])
    (h : getBlockParamStartLoc env node = Except.ok (act, exp)) :
    exp = { line := (specBlockParamTail node).line + 1,
            column := node.loc.start.column } := by
  simp only [getBlockParamStartLoc] at h
  cases hpr : node.program with
  | none => rw [hpr] at h; simp at h
  | some pr =>
    rw [hpr] at h
    dsimp only at h
    rw [if_neg (by
      rintro ⟨h1, h2⟩
      rcases hargs with hne | hne
      · exact hne (List.length_eq_zero.mp h1)
      · exact hne (List.length_eq_zero.mp h2))] at h
    by_cases hhp : node.hash.pairs = []
    · have hpne : node.params ≠ [] := by
        rcases hargs with hne | hne
        · exact hne
        · exact absurd hhp hne
      rw [if_neg (by simp [hhp])] at h
      rw [if_pos (by simpa using hpne)] at h
      cases hgl : node.params.getLast? with
      | none =>
        exact absurd (List.getLast?_eq_none_iff.mp hgl) hpne
      | some lastp =>
        rw [hgl] at h
        dsimp only [Option.map] at h
        have hspec : specBlockParamTail node = lastp.loc.end_ := by
          unfold specBlockParamTail
          rw [if_neg (by simp [hhp]), hgl]
        rw [hspec]
        split at h
        · simp only [Except.ok.injEq, Prod.mk.injEq] at h
          exact h.2.symm
        · split at h
          · split at h
            · simp only [Except.ok.injEq, Prod.mk.injEq] at h
              exact h.2.symm
            · simp only [Except.ok.injEq, Prod.mk.injEq] at h
              exact h.2.symm
          · simp only [Except.ok.injEq, Prod.mk.injEq] at h
            exact h.2.symm
    · rw [if_pos (by simpa using hhp)] at h
      dsimp only at h
      have hspec : specBlockParamTail node = node.hash.loc.end_ := by
        unfold specBlockParamTail
        rw [if_pos hhp]
      rw [hspec]
      split at h
      · simp only [Except.ok.injEq, Prod.mk.injEq] at h
        exact h.2.symm
      · split at h
        · split at h
          · simp only [Except.ok.injEq, Prod.mk.injEq] at h
            exact h.2.symm
          · simp only [Except.ok.injEq, Prod.mk.injEq] at h
            exact h.2.symm
        · simp only [Except.ok.injEq, Prod.mk.injEq] at h
          exact h.2.symm

/-- Witness for claim C1: a concrete block invocation carrying both a positional
argument and a hash ends its expectation one line below the hash end. -/
theorem getBlockParamStartLoc_expected_tail_witness :
    ({ line := 4, column := 0 } : Coord)
      = { line := (specBlockParamTail nodeC1).line + 1, column := nodeC1.loc.start.column } :=
  getBlockParamStartLoc_expected_tail envEmpty nodeC1
    (some { line := 4, column := 0 }) { line := 4, column := 0 }
    (Or.inl (by decide)) (by decide)

/-- Counterexample for claim C1 as frozen: with both argument kinds present the
code anchors on the hash end (line 3, so expected line 4), not on the last
positional argument end (line 2, which would give expected line 3) as the frozen
claim requires whenever positional arguments exist. -/
theorem getBlockParamStartLoc_c1_cex :
    (getBlockParamStartLoc envEmpty nodeC1).map (fun r => r.2)
      = Except.ok ({ line := 4, column := 0 } : Coord)
    ∧ (nodeC1.params.getLast?).map (fun p => p.loc.end_.line + 1) = some 3
    ∧ nodeC1.params ≠ []
    ∧ ((4 : Int) ≠ 3) :=
  ⟨by decide, by decide, by decide, by decide⟩

end AttrIndent
